import Mathlib

/-!
Shallow embedding of `evm-adapters/src/sputnik/cheatcodes/cheatcode_handler.rs`
(the cheatcode-enabled EVM execution interposer) and proofs about its
dispatcher, cheatcode engine and gas budgeting.

Bytes are modelled as `List Nat` (each element a byte value), addresses
(`H160`) and 256-bit words (`U256`) as `Nat`.  External collaborators (the
ABI decoders for cheatcode/console calldata, the secp256k1 signer, the
process spawner, Rust's lossy UTF-8 renderer) are supplied as function
parameters bundled in an `Env` record, exactly as the spec declares them
out of scope.  Functions that can panic in Rust (`expect`, `unwrap`,
`assert_eq`, out-of-bounds slicing) return `Option`, with `none` marking
the panic.
-/

namespace Cheatcodes

abbrev Bytes := List Nat
abbrev Addr := Nat
abbrev Word := Nat

/-- Exit statuses mirroring sputnik's `ExitSucceed`. -/
inductive ExitSucceed
  | Stopped
  | Returned
  | Suicided
deriving Repr, DecidableEq

/-- Exit statuses mirroring sputnik's `ExitRevert`. -/
inductive ExitRevert
  | Reverted
deriving Repr, DecidableEq

/-- Exit errors mirroring the sputnik `ExitError` variants this file needs. -/
inductive ExitError
  | OutOfGas
  | CallTooDeep
  | OutOfFund
  | Other
deriving Repr, DecidableEq

/-- Exit reason mirroring sputnik's `ExitReason`. -/
inductive ExitReason
  | Succeed (s : ExitSucceed)
  | Error (e : ExitError)
  | Revert (r : ExitRevert)
  | Fatal
deriving Repr, DecidableEq

/-- Big-endian 32-byte encoding of a word, as `U256::to_big_endian` /
the ABI word encoding produce. -/
def beWord (n : Nat) : Bytes :=
  (List.range 32).map fun i => n / 256 ^ (31 - i) % 256

/-- Right-padding with zero bytes up to a multiple of 32, as the ABI
encoder pads dynamic data. -/
def padRight32 (bs : Bytes) : Bytes :=
  bs ++ List.replicate ((32 - bs.length % 32) % 32) 0

/-- UTF-8 encoding of one code point. -/
def utf8EncodeCharBytes (c : Char) : Bytes :=
  let n := c.toNat
  if n < 128 then [n]
  else if n < 2048 then [192 + n / 64, 128 + n % 64]
  else if n < 65536 then [224 + n / 4096, 128 + n / 64 % 64, 128 + n % 64]
  else [240 + n / 262144, 128 + n / 4096 % 64, 128 + n / 64 % 64, 128 + n % 64]

/-- UTF-8 bytes of a string, as `String::as_bytes` in Rust. -/
def utf8Bytes (s : String) : Bytes :=
  (s.data.map utf8EncodeCharBytes).flatten

/-- The subset of `ethers::abi::Token` the source file constructs or
inspects. -/
inductive Token
  | string (s : String)
  | bytes (b : Bytes)
  | address (a : Addr)
  | uint (n : Word)
  | fixedBytes (b : Bytes)
  | tuple (ts : List Token)

/-- Conversion of a token into raw bytes, as `Token::into_bytes`: succeeds
only on the `Bytes` variant. -/
def Token.into_bytes : Token → Option Bytes
  | Token.bytes b => some b
  | _ => none

/-- Head (in-place) encoding of a static token; the source only ever
encodes tuples of static tokens, so this is all the tuple case needs. -/
def encodeStatic : Token → Bytes
  | Token.address a => beWord a
  | Token.uint n => beWord n
  | Token.fixedBytes b => padRight32 b
  | _ => []

/-- ABI encoding of a single token, as `ethers::abi::encode(&[t])` on the
shapes the source file actually passes: a lone `String`, `Bytes`,
`Address` or a tuple of static tokens.  A dynamic token is encoded as an
offset word (32), a length word and the padded data. -/
def abiEncodeSingle : Token → Bytes
  | Token.string s => beWord 32 ++ beWord (utf8Bytes s).length ++ padRight32 (utf8Bytes s)
  | Token.bytes b => beWord 32 ++ beWord b.length ++ padRight32 b
  | Token.address a => beWord a
  | Token.uint n => beWord n
  | Token.fixedBytes b => padRight32 b
  | Token.tuple ts => (ts.map encodeStatic).flatten

/-- Read the 32-byte big-endian word of `data` starting at byte `off`, as
ethabi's `peek_32_bytes`: fails when fewer than 32 bytes remain. -/
def wordAt (data : Bytes) (off : Nat) : Option Nat :=
  if off + 32 ≤ data.length then
    some (((data.drop off).take 32).foldl (fun a b => a * 256 + b) 0)
  else none

/-- Word-to-usize conversion, as ethabi's `as_usize`: requires the top 28
bytes to be zero. -/
def asUsize (w : Nat) : Option Nat :=
  if w < 4294967296 then some w else none

/-- ABI decoding with parameter list `[ParamType::Bytes]`, as
`ethers::abi::decode(&[ParamType::Bytes], data)`: read the offset word at
position 0, the length word at the offset, then take that many data bytes;
any missing bytes or oversized word is a decoding error (`none`). -/
def decode_bytes_param (data : Bytes) : Option (List Token) :=
  match wordAt data 0 with
  | none => none
  | some w0 =>
    match asUsize w0 with
    | none => none
    | some offset =>
      match wordAt data offset with
      | none => none
      | some w1 =>
        match asUsize w1 with
        | none => none
        | some len =>
          if offset + 32 + len ≤ data.length then
            some [Token.bytes ((data.drop (offset + 32)).take len)]
          else none

/-- Lower-case hex digit for a value below 16, as the `hex` crate emits. -/
def hexChar (n : Nat) : Char :=
  if n < 10 then Char.ofNat (48 + n) else Char.ofNat (87 + n)

/-- Lower-case hex rendering of a byte string, as `hex::encode`. -/
def hexEncode (bs : Bytes) : String :=
  String.mk ((bs.map fun b => [hexChar (b / 16), hexChar (b % 16)]).flatten)

/-- Value of one hex-digit byte (accepting both cases), as the `hex`
crate's digit table. -/
def hexVal (c : Nat) : Option Nat :=
  if 48 ≤ c ∧ c ≤ 57 then some (c - 48)
  else if 97 ≤ c ∧ c ≤ 102 then some (c - 87)
  else if 65 ≤ c ∧ c ≤ 70 then some (c - 55)
  else none

/-- Hex decoding of a byte string, as `hex::decode`: fails on odd length
or any non-hex byte. -/
def hexDecode : Bytes → Option Bytes
  | [] => some []
  | [_] => none
  | h :: l :: rest =>
    match hexVal h, hexVal l, hexDecode rest with
    | some hi, some lo, some tl => some ((hi * 16 + lo) :: tl)
    | _, _, _ => none

/-- Single-quote character, used to render the expected-revert mismatch
message. -/
def squote : String := String.mk [Char.ofNat 39]

/-- Address where the cheatcode contract lives
(`0x7109709ECfa91a80626fF3989D68f67F5b1DD12D`). -/
def CHEATCODE_ADDRESS : Addr := 0x7109709ECfa91a80626fF3989D68f67F5b1DD12D

/-- Address used by hardhat's `console.sol`
(`0x000000000000000000636F6e736F6c652e6c6f67`). -/
def CONSOLE_ADDRESS : Addr := 0x000000000000000000636F6e736F6c652e6c6f67

/-- Dummy return populated on a matched expected revert so that a
downstream ABI decode does not fault: 320 zero bytes. -/
def DUMMY_OUTPUT : Bytes := List.replicate 320 0

/-- The 4-byte `Error(string)` selector `0x08c379a0`, written as the byte
literal `[8, 195, 121, 160]` in the source. -/
def ERROR_STRING_SELECTOR : Bytes := [8, 195, 121, 160]

/-- Helper creating an exit value for a cheatcode error: a `Reverted` exit
whose data is the ABI encoding of the message as a string token
(`evm_error` in the source). -/
def evm_error (retdata : String) : ExitReason × Bytes :=
  (ExitReason.Revert ExitRevert.Reverted, abiEncodeSingle (Token.string retdata))

/-- Cheat overlay stored on the `CheatcodeBackend`: optional overrides for
the three block quantities. -/
structure Cheats where
  block_timestamp : Option Word
  block_number : Option Word
  block_base_fee_per_gas : Option Word
deriving Repr, DecidableEq

/-- Executor state: the cheatcode extensions of `MemoryStackStateOwned`
(`expected_revert`, `next_msg_sender`, `msg_sender`), the backend's cheat
overlay and base block values, the substate metadata depth, and the
account maps the cheatcodes mutate. -/
structure ExecState where
  expected_revert : Option Bytes
  next_msg_sender : Option Addr
  msg_sender : Option (Addr × Addr × Nat)
  cheats : Cheats
  depth : Option Nat
  base_timestamp : Word
  base_number : Word
  base_base_fee_per_gas : Word
  balances : Addr → Word
  storage : Addr → Word → Word
  code : Addr → Bytes

/-- The `CheatcodeHandler` struct: the wrapped executor state, the FFI
flag and the accumulated console logs. -/
structure CheatcodeHandler where
  state : ExecState
  enable_ffi : Bool
  console_logs : List String

/-- Decoded cheatcode calls, mirroring the `HEVMCalls` ABI variants. -/
inductive HEVMCalls
  | Warp (t : Word)
  | Roll (n : Word)
  | Fee (f : Word)
  | Store (a : Addr) (k : Word) (v : Word)
  | Load (a : Addr) (k : Word)
  | Ffi (args : List String)
  | Addr (sk : Word)
  | Sign (sk : Word) (digest : Word)
  | Prank (a : Addr)
  | StartPrank (a : Addr)
  | StopPrank
  | ExpectRevert (b : Bytes)
  | Deal (a : Addr) (v : Word)
  | Etch (a : Addr) (code : Bytes)

/-- Value transfer accompanying a call, as sputnik's `Transfer`. -/
structure Transfer where
  source : Addr
  target : Addr
  value : Word
deriving Repr, DecidableEq

/-- Call context, as sputnik's `Context`. -/
structure Context where
  address : Addr
  caller : Addr
  apparent_value : Word
deriving Repr, DecidableEq

/-- External collaborators consumed by the interposer, supplied as
functions: the cheatcode and console ABI decoders (the console one fused
with the selector patch and `Display` rendering), the process spawner
behind `ffi` (returning either an error message or the captured stdout),
the hex crate's error renderer, the secp256k1 primitives, and Rust's
`String::from_utf8_lossy`. -/
structure Env where
  decodeHEVM : Bytes → Except String HEVMCalls
  consoleRender : Bytes → Except String String
  spawn : List String → Except String Bytes
  hexErrorMessage : Bytes → String
  signingKeyFromBytes : Bytes → Except String Unit
  keyAddress : Bytes → Addr
  sign : Bytes → Word → Word × Word × Word
  recover : Word × Word × Word → Word → Except String Addr
  utf8Lossy : Bytes → String

/-- Message of the `ffi` gate when `enable_ffi` is false. -/
def ffi_disabled_msg : String :=
  "ffi disabled: run again with --ffi if you want to allow tests to call external scripts"

/-- Message rejecting a zero private key in `addr`/`sign`. -/
def bad_key_msg : String := "Bad Cheat Code. Private Key cannot be 0."

/-- Message rejecting `prank` while a `startPrank` is active at this
frame depth. -/
def prank_conflict_msg : String :=
  "You have an active `startPrank` at this frame depth already. Use either `prank` or `startPrank`, not both"

/-- Message rejecting `startPrank` while a `prank` is pending. -/
def start_prank_conflict_msg : String :=
  "You have an active `prank` call already. Use either `prank` or `startPrank`, not both"

/-- Message rejecting a second `expectRevert` while one is pending. -/
def second_expect_revert_msg : String :=
  "You must call another function prior to expecting a second revert."

/-- Message of the synthetic revert produced when an expected revert did
not occur. -/
def did_not_revert_msg : String := "Expected revert call did not revert"

/-- Depth pattern appearing at the `Prank`, `StartPrank` and dispatcher
sites: `depth + 1` when the substate metadata reports a depth, `0` when
it reports none. -/
def depth_plus_one_or_zero (depth : Option Nat) : Nat :=
  match depth with
  | some d => d + 1
  | none => 0

/-- Modelled from the spec: `MemoryStackStateOwned::reset_balance` is not
under `src/`; per the spec's `Deal` row it resets the balance of `who` to
zero. -/
def reset_balance (st : ExecState) (who : Addr) : ExecState :=
  { st with balances := fun x => if x = who then 0 else st.balances x }

/-- Modelled from the spec: `MemoryStackStateOwned::deposit` is not under
`src/`; per the spec's `Deal` row it deposits `value` into `who`. -/
def deposit (st : ExecState) (who : Addr) (value : Word) : ExecState :=
  { st with balances := fun x => if x = who then st.balances x + value else st.balances x }

/-- Modelled from the spec: the stack state's `set_storage` is not under
`src/`; it stores `v` at slot `(a, k)`. -/
def set_storage (st : ExecState) (a : Addr) (k v : Word) : ExecState :=
  { st with storage := fun x y => if x = a ∧ y = k then v else st.storage x y }

/-- Modelled from the spec: the stack state's `set_code` is not under
`src/`; it replaces the code of `a`. -/
def set_code (st : ExecState) (a : Addr) (c : Bytes) : ExecState :=
  { st with code := fun x => if x = a then c else st.code x }

/-- Char-boundary test for the byte slice `&output[2..]` taken of the
unchecked-UTF-8 stdout in the `ffi` branch: Rust's `is_char_boundary(2)`
holds when the string is exactly 2 bytes long, or when byte 2 exists and
is not a UTF-8 continuation byte; otherwise the slicing panics. -/
def char_boundary_at_2 (output : Bytes) : Bool :=
  match output.drop 2 with
  | [] => output.length == 2
  | b :: _ => decide (b < 128 ∨ 192 ≤ b)

/-- The cheatcode engine on decoded calldata: the `match decoded` body of
`apply_cheatcode`.  `msg_sender` is the caller of the cheatcode call.
Returns `none` where the Rust code panics (the `sign` unwrap/assert). -/
def apply_cheatcode_decoded (env : Env) (h : CheatcodeHandler) (decoded : HEVMCalls)
    (msg_sender : Addr) : Option ((ExitReason × Bytes) × CheatcodeHandler) :=
  match decoded with
  | HEVMCalls.Warp t =>
    some ((ExitReason.Succeed ExitSucceed.Stopped, []),
      { h with state := { h.state with cheats := { h.state.cheats with block_timestamp := some t } } })
  | HEVMCalls.Roll n =>
    some ((ExitReason.Succeed ExitSucceed.Stopped, []),
      { h with state := { h.state with cheats := { h.state.cheats with block_number := some n } } })
  | HEVMCalls.Fee f =>
    some ((ExitReason.Succeed ExitSucceed.Stopped, []),
      { h with state := { h.state with cheats := { h.state.cheats with block_base_fee_per_gas := some f } } })
  | HEVMCalls.Store a k v =>
    some ((ExitReason.Succeed ExitSucceed.Stopped, []),
      { h with state := set_storage h.state a k v })
  | HEVMCalls.Load a k =>
    some ((ExitReason.Succeed ExitSucceed.Stopped, beWord (h.state.storage a k)), h)
  | HEVMCalls.Ffi args =>
    if !h.enable_ffi then
      some (evm_error ffi_disabled_msg, h)
    else
      match env.spawn args with
      | Except.error err => some (evm_error err, h)
      | Except.ok output =>
        if char_boundary_at_2 output then
          match hexDecode (output.drop 2) with
          | none => some (evm_error (env.hexErrorMessage (output.drop 2)), h)
          | some decodedHex =>
            some ((ExitReason.Succeed ExitSucceed.Stopped,
              abiEncodeSingle (Token.bytes decodedHex)), h)
        else none
  | HEVMCalls.Addr sk =>
    if sk = 0 then some (evm_error bad_key_msg, h)
    else
      match env.signingKeyFromBytes (beWord sk) with
      | Except.error err => some (evm_error err, h)
      | Except.ok _ =>
        some ((ExitReason.Succeed ExitSucceed.Stopped,
          abiEncodeSingle (Token.address (env.keyAddress (beWord sk)))), h)
  | HEVMCalls.Sign sk digest =>
    if sk = 0 then some (evm_error bad_key_msg, h)
    else
      match env.signingKeyFromBytes (beWord sk) with
      | Except.error err => some (evm_error err, h)
      | Except.ok _ =>
        let sig := env.sign (beWord sk) digest
        match env.recover sig digest with
        | Except.error _ => none
        | Except.ok recovered =>
          if recovered = env.keyAddress (beWord sk) then
            some ((ExitReason.Succeed ExitSucceed.Stopped,
              abiEncodeSingle (Token.tuple
                [Token.uint sig.1, Token.fixedBytes (beWord sig.2.1),
                 Token.fixedBytes (beWord sig.2.2)])), h)
          else none
  | HEVMCalls.Prank a =>
    match h.state.msg_sender with
    | some (orginal_pranker, caller, depth) =>
      let start_prank_depth := depth_plus_one_or_zero h.state.depth
      if start_prank_depth = depth ∧ caller = orginal_pranker then
        some (evm_error prank_conflict_msg, h)
      else
        some ((ExitReason.Succeed ExitSucceed.Stopped, []),
          { h with state := { h.state with next_msg_sender := some a } })
    | none =>
      some ((ExitReason.Succeed ExitSucceed.Stopped, []),
        { h with state := { h.state with next_msg_sender := some a } })
  | HEVMCalls.StartPrank a =>
    if h.state.next_msg_sender.isSome then
      some (evm_error start_prank_conflict_msg, h)
    else
      some ((ExitReason.Succeed ExitSucceed.Stopped, []),
        { h with state := { h.state with
          msg_sender := some (msg_sender, a, depth_plus_one_or_zero h.state.depth) } })
  | HEVMCalls.StopPrank =>
    some ((ExitReason.Succeed ExitSucceed.Stopped, []),
      { h with state := { h.state with msg_sender := none } })
  | HEVMCalls.ExpectRevert b =>
    if h.state.expected_revert.isSome then
      some (evm_error second_expect_revert_msg, h)
    else
      some ((ExitReason.Succeed ExitSucceed.Stopped, []),
        { h with state := { h.state with expected_revert := some b } })
  | HEVMCalls.Deal a v =>
    some ((ExitReason.Succeed ExitSucceed.Stopped, []),
      { h with state := deposit (reset_balance h.state a) a v })
  | HEVMCalls.Etch a c =>
    some ((ExitReason.Succeed ExitSucceed.Stopped, []),
      { h with state := set_code h.state a c })

/-- The cheatcode entry point `apply_cheatcode`: decode the calldata and
run the engine; a decode failure becomes a synthetic revert carrying the
decoder message. -/
def apply_cheatcode (env : Env) (h : CheatcodeHandler) (input : Bytes) (msg_sender : Addr) :
    Option ((ExitReason × Bytes) × CheatcodeHandler) :=
  match env.decodeHEVM input with
  | Except.error err => some (evm_error err, h)
  | Except.ok decoded => apply_cheatcode_decoded env h decoded msg_sender

/-- The console logger `console_log`: decode (with the hardhat selector
patch) and render the calldata, append the string, return an empty
`Stopped` success; a decode failure becomes a synthetic revert. -/
def console_log (env : Env) (h : CheatcodeHandler) (input : Bytes) :
    (ExitReason × Bytes) × CheatcodeHandler :=
  match env.consoleRender input with
  | Except.error err => (evm_error err, h)
  | Except.ok s =>
    ((ExitReason.Succeed ExitSucceed.Stopped, []),
      { h with console_logs := h.console_logs ++ [s] })

/-- Expected-revert mismatch message for the decoded `Error(string)`
branch, rendering both sides with `String::from_utf8_lossy`. -/
def mismatch_string_msg (env : Env) (decoded expected : Bytes) : String :=
  "Error != expected error: " ++ squote ++ env.utf8Lossy decoded ++ squote ++ " != " ++
    squote ++ env.utf8Lossy expected ++ squote

/-- Expected-revert mismatch message for the raw-data branch, rendering
both sides in hex. -/
def mismatch_data_msg (data expected : Bytes) : String :=
  "Error data != expected error data: 0x" ++ hexEncode data ++ " != 0x" ++ hexEncode expected

/-- Post-processing of a finished call when an `expected_revert` payload
was pending (the `if let Some(expected_revert)` block of `call`).
Returns `none` where the Rust code panics: the `expect` on a failed ABI
decode of a selector-prefixed payload, the indexing of the decoded token
and the `expect` on `into_bytes`. -/
def handle_expected_revert (env : Env) (expected_revert : Bytes) (reason : ExitReason)
    (data : Bytes) : Option (ExitReason × Bytes) :=
  match reason with
  | ExitReason.Revert _ =>
    if 4 ≤ data.length ∧ data.take 4 = ERROR_STRING_SELECTOR then
      match decode_bytes_param (data.drop 4) with
      | none => none
      | some decoded =>
        match decoded with
        | [] => none
        | t :: _ =>
          match t.into_bytes with
          | none => none
          | some decoded_data =>
            if decoded_data = expected_revert then
              some (ExitReason.Succeed ExitSucceed.Returned, DUMMY_OUTPUT)
            else
              some (evm_error (mismatch_string_msg env decoded_data expected_revert))
    else
      if data = expected_revert then
        some (ExitReason.Succeed ExitSucceed.Returned, DUMMY_OUTPUT)
      else
        some (evm_error (mismatch_data_msg data expected_revert))
  | _ => some (evm_error did_not_revert_msg)

/-- The `startPrank` rewrite step of the dispatcher: when the stored
triple's depth equals the freshly computed depth and the context caller
equals the stored original sender, replace the effective caller (and the
transfer source) with the impersonated caller. -/
def start_prank_rewrite (st : ExecState) (context : Context) (transfer : Option Transfer) :
    Context × Option Transfer :=
  match st.msg_sender with
  | some (original_msg_sender, permanent_caller, depth) =>
    let curr_depth := depth_plus_one_or_zero st.depth
    if curr_depth = depth ∧ context.caller = original_msg_sender then
      ({ context with caller := permanent_caller },
        match transfer with
        | some t => some { source := permanent_caller, target := t.target, value := t.value }
        | none => none)
    else (context, transfer)
  | none => (context, transfer)

/-- The one-shot `prank` rewrite step of the dispatcher: take
`next_msg_sender` and, when present, replace the effective caller and the
transfer source with it. -/
def next_msg_sender_rewrite (st : ExecState) (context : Context) (transfer : Option Transfer) :
    (Context × Option Transfer) × ExecState :=
  match st.next_msg_sender with
  | some caller =>
    (({ context with caller := caller },
       match transfer with
       | some t => some { source := caller, target := t.target, value := t.value }
       | none => none),
     { st with next_msg_sender := none })
  | none => ((context, transfer), st)

/-- Type of the delegated standard call path (`call_inner` applied with
`take_l64 = true`, `take_stipend = true`): its internals drive the
out-of-scope EVM runtime, so the dispatcher is parametrised over it. -/
abbrev InnerCall :=
  CheatcodeHandler → Addr → Option Transfer → Bytes → Option Nat → Bool → Context →
    (ExitReason × Bytes) × CheatcodeHandler

/-- The intercept dispatcher `call`: route cheatcode-address calls to the
engine and console-address calls to the logger; otherwise take the
pending `expected_revert`, apply the two prank rewrites, delegate to the
standard path and post-process the result when an expected revert was
pending.  `none` marks a Rust panic. -/
def call (env : Env) (inner : InnerCall) (h : CheatcodeHandler) (code_address : Addr)
    (transfer : Option Transfer) (input : Bytes) (target_gas : Option Nat) (is_static : Bool)
    (context : Context) : Option ((ExitReason × Bytes) × CheatcodeHandler) :=
  if code_address = CHEATCODE_ADDRESS then
    apply_cheatcode env h input context.caller
  else if code_address = CONSOLE_ADDRESS then
    some (console_log env h input)
  else
    let expected_revert := h.state.expected_revert
    let h1 : CheatcodeHandler := { h with state := { h.state with expected_revert := none } }
    let ct := start_prank_rewrite h1.state context transfer
    let r2 := next_msg_sender_rewrite h1.state ct.1 ct.2
    let h2 : CheatcodeHandler := { h1 with state := r2.2 }
    let res := inner h2 code_address r2.1.2 input target_gas is_static r2.1.1
    match expected_revert with
    | none => some res
    | some expected =>
      match handle_expected_revert env expected res.1.1 res.1.2 with
      | none => none
      | some out => some (out, res.2)

/-- Modelled from the spec: the sputnik gasometer is an out-of-scope
black box; per the spec, recording a cost deducts it from the remaining
gas, failing with `OutOfGas` when it exceeds it, and a gasometer already
marked failed reports zero gas and fails every record with its stored
error. -/
structure Gasometer where
  inner : Except ExitError Nat

/-- Remaining gas of the gasometer; zero once it has failed. -/
def Gasometer.gas (g : Gasometer) : Nat :=
  match g.inner with
  | Except.ok n => n
  | Except.error _ => 0

/-- Record a cost against the gasometer. -/
def Gasometer.record_cost (g : Gasometer) (cost : Nat) : Except ExitError Gasometer :=
  match g.inner with
  | Except.error e => Except.error e
  | Except.ok n =>
    if cost ≤ n then Except.ok ⟨Except.ok (n - cost)⟩ else Except.error ExitError.OutOfGas

/-- The configuration fields `call_inner`'s gas budgeting consults. -/
structure GasConfig where
  call_l64_after_gas : Bool
  estimate : Bool
  call_stipend : Nat
deriving Repr, DecidableEq

/-- The EIP-150 deduction `l64` from `call_inner`: forward at most 63/64
of the remaining gas. -/
def l64 (gas : Nat) : Nat := gas - gas / 64

/-- Maximum value of a `u64`. -/
def U64_LIMIT : Nat := 18446744073709551615

/-- Saturating `u64` addition, as `u64::saturating_add`. -/
def saturating_add_u64 (a b : Nat) : Nat := min (a + b) U64_LIMIT

/-- The gas-budgeting prefix of `call_inner` (source lines 497 to 519):
compute `after_gas` (with the 63/64 rule, recorded as an explicit cost in
estimate mode), clamp the requested gas, record the resulting limit as a
cost, and add the call stipend (saturating) when a non-zero-value
transfer takes a stipend.  Returns the forwarded gas limit together with
the gasometer left behind. -/
def call_inner_gas (cfg : GasConfig) (g : Gasometer) (target_gas : Option Nat)
    (take_l64 take_stipend : Bool) (transfer : Option Transfer) :
    Except ExitError (Nat × Gasometer) :=
  match (if take_l64 && cfg.call_l64_after_gas then
           (if cfg.estimate then
              (let initial_after_gas := g.gas
               let diff := initial_after_gas - l64 initial_after_gas
               match g.record_cost diff with
               | Except.error e => Except.error e
               | Except.ok g1 => Except.ok (g1.gas, g1))
            else Except.ok (l64 g.gas, g))
         else (Except.ok (g.gas, g) : Except ExitError (Nat × Gasometer))) with
  | Except.error e => Except.error e
  | Except.ok p =>
    let after_gas := p.1
    let target := target_gas.getD after_gas
    let gas_limit := min target after_gas
    match p.2.record_cost gas_limit with
    | Except.error e => Except.error e
    | Except.ok g2 =>
      match transfer with
      | some t =>
        if take_stipend && (t.value != 0) then
          Except.ok (saturating_add_u64 gas_limit cfg.call_stipend, g2)
        else Except.ok (gas_limit, g2)
      | none => Except.ok (gas_limit, g2)

/-- Modelled from the spec: the `CheatcodeBackend` query overrides live in
`backend.rs`, which is not under `src/`; per the spec a populated overlay
field overrides the wrapped backend's block timestamp. -/
def block_timestamp (h : CheatcodeHandler) : Word :=
  match h.state.cheats.block_timestamp with
  | some t => t
  | none => h.state.base_timestamp

/-- Modelled from the spec: overlay override for the block number (see
`block_timestamp`). -/
def block_number (h : CheatcodeHandler) : Word :=
  match h.state.cheats.block_number with
  | some n => n
  | none => h.state.base_number

/-- Modelled from the spec: overlay override for the block base fee (see
`block_timestamp`). -/
def block_base_fee_per_gas (h : CheatcodeHandler) : Word :=
  match h.state.cheats.block_base_fee_per_gas with
  | some f => f
  | none => h.state.base_base_fee_per_gas

/-- Modelled from the spec: the balance query is forwarded unchanged to
the wrapped state (spec §4.7). -/
def balance (h : CheatcodeHandler) (address : Addr) : Word :=
  h.state.balances address

/-! Concrete fixtures used to instantiate theorems with hypotheses. -/

/-- A concrete environment with simple external collaborators. -/
def env0 : Env where
  decodeHEVM := fun _ => Except.error "unknown selector"
  consoleRender := fun _ => Except.ok "log"
  spawn := fun _ => Except.ok (utf8Bytes "0xdead")
  hexErrorMessage := fun _ => "hex error"
  signingKeyFromBytes := fun _ => Except.ok ()
  keyAddress := fun _ => 0
  sign := fun _ _ => (27, 1, 1)
  recover := fun _ _ => Except.ok 0
  utf8Lossy := fun _ => ""

/-- A concrete executor state with everything empty. -/
def st0 : ExecState where
  expected_revert := none
  next_msg_sender := none
  msg_sender := none
  cheats := ⟨none, none, none⟩
  depth := none
  base_timestamp := 0
  base_number := 0
  base_base_fee_per_gas := 0
  balances := fun _ => 0
  storage := fun _ _ => 0
  code := fun _ => []

/-- A concrete handler over `st0` with FFI enabled. -/
def h0 : CheatcodeHandler := ⟨st0, true, []⟩

/-- A concrete handler over `st0` with FFI disabled. -/
def h0_no_ffi : CheatcodeHandler := ⟨st0, false, []⟩

/-- An inner call that ignores its arguments and returns a fixed result
and handler. -/
def inner_returning (r : ExitReason × Bytes) (h2 : CheatcodeHandler) : InnerCall :=
  fun _ _ _ _ _ _ _ => (r, h2)

/-- Revert payload that is selector-prefixed and well-formed, decoding to
the empty byte string: the `Error(string)` selector, an offset word of 32
and a length word of 0. -/
def dataC1 : Bytes := ERROR_STRING_SELECTOR ++ beWord 32 ++ beWord 0

/-- Handler whose pending expected revert is exactly `dataC1`. -/
def hC1 : CheatcodeHandler := ⟨{ st0 with expected_revert := some dataC1 }, true, []⟩

/-- Handler whose pending expected revert is the single byte `1`. -/
def hC2 : CheatcodeHandler := ⟨{ st0 with expected_revert := some [1] }, true, []⟩

/-- Handler whose pending expected revert is the three bytes `1 2 3`. -/
def hC1w : CheatcodeHandler := ⟨{ st0 with expected_revert := some [1, 2, 3] }, true, []⟩

/-- Environment whose cheatcode decoder always yields `Warp 3`. -/
def envC10 : Env := { env0 with decodeHEVM := fun _ => Except.ok (HEVMCalls.Warp 3) }

/-- Whether a decoded cheatcode is the `Prank` variant. -/
def HEVMCalls.is_prank : HEVMCalls → Bool
  | HEVMCalls.Prank _ => true
  | _ => false

/-- Whether a decoded cheatcode is the `StartPrank` variant. -/
def HEVMCalls.is_start_prank : HEVMCalls → Bool
  | HEVMCalls.StartPrank _ => true
  | _ => false

/-- Whether a decoded cheatcode is the `StopPrank` variant. -/
def HEVMCalls.is_stop_prank : HEVMCalls → Bool
  | HEVMCalls.StopPrank => true
  | _ => false

/-- Whether a decoded cheatcode is the `ExpectRevert` variant. -/
def HEVMCalls.is_expect_revert : HEVMCalls → Bool
  | HEVMCalls.ExpectRevert _ => true
  | _ => false

/-- Formula from the spec sentence for claim C8: `after_gas` applies the
63/64 deduction exactly when `take_l64` and the config enable it. -/
def spec_after_gas (cfg : GasConfig) (take_l64 : Bool) (gas : Nat) : Nat :=
  if take_l64 && cfg.call_l64_after_gas then l64 gas else gas

/-- Formula from the spec sentence for claim C8:
`gas_limit = min(target_gas ?? after_gas, after_gas)`. -/
def spec_gas_limit (cfg : GasConfig) (take_l64 : Bool) (gas : Nat) (target_gas : Option Nat) :
    Nat :=
  min (target_gas.getD (spec_after_gas cfg take_l64 gas)) (spec_after_gas cfg take_l64 gas)

/-- Formula from the spec sentence for claim C8: the configured call
stipend is added, saturating, when `take_stipend` holds and the transfer
value is non-zero. -/
def spec_stipend (cfg : GasConfig) (take_stipend : Bool) (tr : Option Transfer) (gl : Nat) :
    Nat :=
  match tr with
  | some t =>
    if take_stipend && (t.value != 0) then saturating_add_u64 gl cfg.call_stipend else gl
  | none => gl

/-- State with an active `startPrank` stored as
`(original = 1, impersonated = 2, depth = 1)` at current metadata depth
`Some 0` (so the freshly computed depth is `1`). -/
def stC3 : ExecState := { st0 with msg_sender := some (1, 2, 1), depth := some 0 }

/-- Handler over `stC3`. -/
def hC3 : CheatcodeHandler := ⟨stC3, true, []⟩

/-- State with a self-impersonating `startPrank` (`original = impersonated
 = 1`) at the current depth. -/
def hC3b : CheatcodeHandler := ⟨{ st0 with msg_sender := some (1, 1, 1), depth := some 0 }, true, []⟩

/-- State with a pending one-shot `prank` (`next_msg_sender = 3`). -/
def hC3c : CheatcodeHandler := ⟨{ st0 with next_msg_sender := some 3 }, true, []⟩

/-- Handler whose state carries a pending expected revert `[1]` and FFI
enabled, used to instantiate the dispatch theorem. -/
def hC10 : CheatcodeHandler := ⟨{ st0 with expected_revert := some [1] }, true, []⟩

/-- Hex digits are ASCII, hence below 128 and not UTF-8 continuation
bytes. -/
theorem hexVal_lt_128 (c v : Nat) (h : hexVal c = some v) : c < 128 := by
  unfold hexVal at h
  split_ifs at h with h1 h2 h3 <;> omega

/-! ### Claim C6: warp / roll / fee set the clock overlay -/

/-- Claim C6: a `warp(T)` / `roll(N)` / `fee(F)` cheatcode call sets the
overlay field to `Some` of the argument, so that the handler queries for
block timestamp / number / base fee return exactly that argument, and
each cheatcode returns `Succeed(Stopped)` with empty output. -/
theorem warp_roll_fee_overlay (env : Env) (h : CheatcodeHandler) (t n f : Word) (ms : Addr) :
    (∃ h', apply_cheatcode_decoded env h (HEVMCalls.Warp t) ms =
        some ((ExitReason.Succeed ExitSucceed.Stopped, []), h')
      ∧ h'.state.cheats.block_timestamp = some t ∧ block_timestamp h' = t)
  ∧ (∃ h', apply_cheatcode_decoded env h (HEVMCalls.Roll n) ms =
        some ((ExitReason.Succeed ExitSucceed.Stopped, []), h')
      ∧ h'.state.cheats.block_number = some n ∧ block_number h' = n)
  ∧ (∃ h', apply_cheatcode_decoded env h (HEVMCalls.Fee f) ms =
        some ((ExitReason.Succeed ExitSucceed.Stopped, []), h')
      ∧ h'.state.cheats.block_base_fee_per_gas = some f ∧ block_base_fee_per_gas h' = f) := by
  refine ⟨⟨_, rfl, rfl, rfl⟩, ⟨_, rfl, rfl, rfl⟩, ⟨_, rfl, rfl, rfl⟩⟩

/-! ### Claim C7: deal resets then deposits -/

/-- Claim C7: `deal(a, v)` resets the balance of `a` to zero and then
deposits `v`, so afterwards the balance of `a` is exactly `v` whatever it
was before, and the cheatcode returns `Succeed(Stopped)` with empty
output. -/
theorem deal_sets_balance (env : Env) (h : CheatcodeHandler) (a : Addr) (v : Word) (ms : Addr) :
    ∃ h', apply_cheatcode_decoded env h (HEVMCalls.Deal a v) ms =
        some ((ExitReason.Succeed ExitSucceed.Stopped, []), h')
      ∧ balance h' a = v := by
  refine ⟨_, rfl, ?_⟩
  simp [balance, deposit, reset_balance]

/-! ### Claim C5: the ffi gate -/

/-- Claim C5: with `enable_ffi = false` every `ffi` call returns a
synthetic revert with exactly the gate message and leaves the handler
untouched — the result does not consult the spawner at all; with
`enable_ffi = true` and a successful spawn whose stdout hex-decodes from
byte 2, the return buffer is the ABI encoding of the decoded bytes as a
bytes token. -/
theorem ffi_gate (env : Env) (h : CheatcodeHandler) (args : List String) (ms : Addr)
    (output bs : Bytes) :
    (h.enable_ffi = false →
      apply_cheatcode_decoded env h (HEVMCalls.Ffi args) ms =
        some (evm_error ffi_disabled_msg, h))
  ∧ (h.enable_ffi = true → env.spawn args = Except.ok output →
      2 ≤ output.length → hexDecode (output.drop 2) = some bs →
      apply_cheatcode_decoded env h (HEVMCalls.Ffi args) ms =
        some ((ExitReason.Succeed ExitSucceed.Stopped,
          abiEncodeSingle (Token.bytes bs)), h)) := by
  constructor
  · intro hoff
    simp [apply_cheatcode_decoded, hoff]
  · intro hon hspawn hlen hdec
    have hbound : char_boundary_at_2 output = true := by
      unfold char_boundary_at_2
      cases hdrop : output.drop 2 with
      | nil =>
        have : output.length ≤ 2 := by
          have := congrArg List.length hdrop
          simp at this
          omega
        simp
        omega
      | cons b rest =>
        rw [hdrop] at hdec
        unfold hexDecode at hdec
        cases rest with
        | nil => simp at hdec
        | cons l rest' =>
          simp only [] at hdec
          rcases hv : hexVal b with _ | v
          · rw [hv] at hdec; simp at hdec
          · have := hexVal_lt_128 b v hv
            simp
            omega
    simp [apply_cheatcode_decoded, hon, hspawn, hbound, hdec]

/-- Witness for `ffi_gate` at concrete inputs: a disabled handler reverts
with the gate message, and an enabled one decodes the stdout `0xdead` to
the two bytes `de ad`. -/
theorem ffi_gate_witness :
    (apply_cheatcode_decoded env0 h0_no_ffi (HEVMCalls.Ffi ["echo", "0xdead"]) 0 =
      some (evm_error ffi_disabled_msg, h0_no_ffi))
  ∧ (apply_cheatcode_decoded env0 h0 (HEVMCalls.Ffi ["echo", "0xdead"]) 0 =
      some ((ExitReason.Succeed ExitSucceed.Stopped,
        abiEncodeSingle (Token.bytes [222, 173])), h0)) := by
  constructor
  · exact (ffi_gate env0 h0_no_ffi ["echo", "0xdead"] 0 [] []).1 rfl
  · exact (ffi_gate env0 h0 ["echo", "0xdead"] 0 (utf8Bytes "0xdead") [222, 173]).2
      rfl rfl (by decide) (by decide)

/-! ### Claim C8: call_inner gas budgeting -/


/-- Claim C8: on a live gasometer holding `n` gas, `call_inner`'s gas
budgeting forwards exactly
`spec_stipend (min (target_gas ?? after_gas) after_gas)` where
`after_gas` applies the 63/64 deduction (recorded as an explicit cost in
estimate mode) when `take_l64` and the config enable it; and a gasometer
error is propagated as an immediate exit. -/
theorem call_inner_gas_budget (cfg : GasConfig) (g : Gasometer) (tg : Option Nat)
    (tl ts : Bool) (tr : Option Transfer) :
    (∀ n, g.inner = Except.ok n →
      ∃ g', call_inner_gas cfg g tg tl ts tr =
        Except.ok (spec_stipend cfg ts tr (spec_gas_limit cfg tl n tg), g'))
  ∧ (∀ e, g.inner = Except.error e →
      call_inner_gas cfg g tg tl ts tr = Except.error e) := by
  obtain ⟨gi⟩ := g
  constructor
  · intro n hn
    simp only [] at hn
    subst hn
    have hl64 : l64 n ≤ n := by unfold l64; omega
    unfold call_inner_gas
    simp only [Gasometer.record_cost, Gasometer.gas, spec_stipend, spec_gas_limit,
      spec_after_gas]
    cases htl : tl && cfg.call_l64_after_gas with
    | false =>
      simp only [Bool.false_eq_true, reduceIte]
      have hle : min (tg.getD n) n ≤ n := Nat.min_le_right _ _
      rw [if_pos hle]
      cases tr with
      | none => exact ⟨_, rfl⟩
      | some t =>
        dsimp only
        split_ifs <;> exact ⟨_, rfl⟩
    | true =>
      simp only [reduceIte]
      cases hest : cfg.estimate with
      | false =>
        simp only [Bool.false_eq_true, reduceIte]
        have hle : min (tg.getD (l64 n)) (l64 n) ≤ n :=
          le_trans (Nat.min_le_right _ _) hl64
        rw [if_pos hle]
        cases tr with
        | none => exact ⟨_, rfl⟩
        | some t =>
          dsimp only
          split_ifs <;> exact ⟨_, rfl⟩
      | true =>
        simp only [reduceIte]
        have hdiff : n - l64 n ≤ n := Nat.sub_le _ _
        rw [if_pos hdiff]
        simp only [Gasometer.gas]
        have hrem : n - (n - l64 n) = l64 n := by omega
        simp only [hrem]
        have hle : min (tg.getD (l64 n)) (l64 n) ≤ l64 n := Nat.min_le_right _ _
        rw [if_pos hle]
        cases tr with
        | none => exact ⟨_, rfl⟩
        | some t =>
          dsimp only
          split_ifs <;> exact ⟨_, rfl⟩
  · intro e he
    simp only [] at he
    subst he
    unfold call_inner_gas
    cases htl : tl && cfg.call_l64_after_gas with
    | false =>
      simp only [Bool.false_eq_true, reduceIte]
      cases tr <;> rfl
    | true =>
      simp only [reduceIte]
      cases hest : cfg.estimate with
      | false =>
        simp only [Bool.false_eq_true, reduceIte]
        cases tr <;> rfl
      | true =>
        simp only [reduceIte]
        cases tr <;> rfl

/-- Witness for `call_inner_gas_budget`: a live gasometer with 128 gas,
the 63/64 rule enabled and a value-bearing transfer forwards
`l64 128 + stipend = 126 + 2300 = 2426`; a failed gasometer propagates
its error. -/
theorem call_inner_gas_budget_witness :
    (∃ g', call_inner_gas ⟨true, false, 2300⟩ ⟨Except.ok 128⟩ none true true
        (some ⟨1, 2, 5⟩) = Except.ok (2426, g'))
  ∧ call_inner_gas ⟨true, false, 2300⟩ ⟨Except.error ExitError.OutOfGas⟩ none true true
      (some ⟨1, 2, 5⟩) = Except.error ExitError.OutOfGas := by
  constructor
  · have h := (call_inner_gas_budget ⟨true, false, 2300⟩ ⟨Except.ok 128⟩ none true true
      (some ⟨1, 2, 5⟩)).1 128 rfl
    exact h
  · exact (call_inner_gas_budget ⟨true, false, 2300⟩ ⟨Except.error ExitError.OutOfGas⟩ none
      true true (some ⟨1, 2, 5⟩)).2 ExitError.OutOfGas rfl

/-! ### Claim C3: prank / startPrank exclusion -/


/-- Counterexample to claim C3: a `startPrank` triple
`(original 1, impersonated 2)` is active at exactly the current frame
depth, and the `prank` cheatcode is issued by caller `1` — the same
original pranker — yet the call is accepted (`Succeed(Stopped)`) and
`next_msg_sender` is set, instead of reverting: the code compares the
stored impersonated caller against the stored original pranker, never
the caller of the `prank`. -/
theorem prank_exclusion_counterexample :
    depth_plus_one_or_zero hC3.state.depth = 1
  ∧ hC3.state.msg_sender = some (1, 2, 1)
  ∧ ((apply_cheatcode_decoded env0 hC3 (HEVMCalls.Prank 5) 1).map
      fun r => (r.1, r.2.state.next_msg_sender))
    = some ((ExitReason.Succeed ExitSucceed.Stopped, []), some 5) :=
  ⟨rfl, rfl, rfl⟩

/-- Claim C3 as amended: a `prank` is rejected with the documented
message exactly when the stored triple's depth equals the freshly
computed depth and the stored impersonated caller equals the stored
original pranker (the caller of the `prank` is not consulted); otherwise
it sets `next_msg_sender`.  A `startPrank` while a `prank` is pending is
rejected with the documented message and leaves `msg_sender` unchanged. -/
theorem prank_start_prank_exclusion (env : Env) (h : CheatcodeHandler) (a ms o c : Addr)
    (d : Nat) (x : Addr) :
    (h.state.msg_sender = some (o, c, d) → depth_plus_one_or_zero h.state.depth = d → c = o →
      apply_cheatcode_decoded env h (HEVMCalls.Prank a) ms =
        some (evm_error prank_conflict_msg, h))
  ∧ (h.state.msg_sender = some (o, c, d) → ¬(depth_plus_one_or_zero h.state.depth = d ∧ c = o) →
      apply_cheatcode_decoded env h (HEVMCalls.Prank a) ms =
        some ((ExitReason.Succeed ExitSucceed.Stopped, []),
          { h with state := { h.state with next_msg_sender := some a } }))
  ∧ (h.state.next_msg_sender = some x →
      apply_cheatcode_decoded env h (HEVMCalls.StartPrank a) ms =
        some (evm_error start_prank_conflict_msg, h))
  ∧ (h.state.next_msg_sender = some x →
      (apply_cheatcode_decoded env h (HEVMCalls.StartPrank a) ms).map
        (fun r => r.2.state.msg_sender) = some h.state.msg_sender) := by
  refine ⟨?_, ?_, ?_, ?_⟩
  · intro hms hd hc
    simp [apply_cheatcode_decoded, hms, hd, hc]
  · intro hms hnot
    simp only [apply_cheatcode_decoded, hms]
    rw [if_neg hnot]
  · intro hx
    simp [apply_cheatcode_decoded, hx]
  · intro hx
    simp [apply_cheatcode_decoded, hx]


/-- Witness for `prank_start_prank_exclusion` at concrete inputs: the
rejecting and accepting `prank` cases and the rejecting `startPrank`
case. -/
theorem prank_start_prank_exclusion_witness :
    (apply_cheatcode_decoded env0 hC3b (HEVMCalls.Prank 5) 9 =
      some (evm_error prank_conflict_msg, hC3b))
  ∧ (apply_cheatcode_decoded env0 hC3 (HEVMCalls.Prank 5) 9 =
      some ((ExitReason.Succeed ExitSucceed.Stopped, []),
        { hC3 with state := { hC3.state with next_msg_sender := some 5 } }))
  ∧ (apply_cheatcode_decoded env0 hC3c (HEVMCalls.StartPrank 7) 9 =
      some (evm_error start_prank_conflict_msg, hC3c))
  ∧ ((apply_cheatcode_decoded env0 hC3c (HEVMCalls.StartPrank 7) 9).map
      (fun r => r.2.state.msg_sender) = some hC3c.state.msg_sender) := by
  refine ⟨?_, ?_, ?_, ?_⟩
  · exact (prank_start_prank_exclusion env0 hC3b 5 9 1 1 1 0).1 rfl rfl rfl
  · exact (prank_start_prank_exclusion env0 hC3 5 9 1 2 1 0).2.1 rfl (by decide)
  · exact (prank_start_prank_exclusion env0 hC3c 7 9 0 0 0 3).2.2.1 rfl
  · exact (prank_start_prank_exclusion env0 hC3c 7 9 0 0 0 3).2.2.2 rfl

/-! ### Claim C4: the triple stored by startPrank -/

/-- Counterexample to claim C4: with no current metadata depth an
accepted `startPrank(7)` issued by caller `9` stores the triple
`(9, 7, 0)` — the active depth is `0`, not `current_depth_or_zero + 1 =
1`. -/
theorem start_prank_depth_counterexample :
    h0.state.depth = none
  ∧ ((apply_cheatcode_decoded env0 h0 (HEVMCalls.StartPrank 7) 9).map
      fun r => r.2.state.msg_sender) = some (some (9, 7, 0))
  ∧ (0 : Nat) ≠ 1 :=
  ⟨rfl, rfl, by decide⟩

/-- Claim C4 as amended: every accepted `startPrank(a)` stores
`(caller_of_cheatcode, a, d)` where `d` is `depth + 1` when the metadata
reports `Some depth` and `0` when it reports none. -/
theorem start_prank_stored_triple (env : Env) (h : CheatcodeHandler) (a ms : Addr) :
    h.state.next_msg_sender = none →
    apply_cheatcode_decoded env h (HEVMCalls.StartPrank a) ms =
      some ((ExitReason.Succeed ExitSucceed.Stopped, []),
        { h with state := { h.state with
          msg_sender := some (ms, a, depth_plus_one_or_zero h.state.depth) } })
    ∧ (h.state.depth = none → depth_plus_one_or_zero h.state.depth = 0)
    ∧ (∀ d, h.state.depth = some d → depth_plus_one_or_zero h.state.depth = d + 1) := by
  intro hn
  refine ⟨?_, ?_, ?_⟩
  · simp [apply_cheatcode_decoded, hn]
  · intro hd; simp [depth_plus_one_or_zero, hd]
  · intro d hd; simp [depth_plus_one_or_zero, hd]

/-- Witness for `start_prank_stored_triple` on the empty handler: the
stored triple is `(9, 7, 0)`. -/
theorem start_prank_stored_triple_witness :
    apply_cheatcode_decoded env0 h0 (HEVMCalls.StartPrank 7) 9 =
      some ((ExitReason.Succeed ExitSucceed.Stopped, []),
        { h0 with state := { h0.state with
          msg_sender := some (9, 7, depth_plus_one_or_zero h0.state.depth) } }) :=
  (start_prank_stored_triple env0 h0 7 9 rfl).1

/-! ### Claims C1, C2, C9: expected-revert post-processing -/

/-- Reduction of the dispatcher on a non-reserved address with a pending
expected revert and an inner call with a known result: the dispatcher
returns the post-processed result paired with the inner call's handler. -/
theorem call_unreserved (env : Env) (inner : InnerCall) (h h2 : CheatcodeHandler)
    (E data : Bytes) (reason : ExitReason) (addr : Addr) (tr : Option Transfer) (input : Bytes)
    (tg : Option Nat) (is_static : Bool) (ctx : Context)
    (ha : addr ≠ CHEATCODE_ADDRESS) (hc : addr ≠ CONSOLE_ADDRESS)
    (hexp : h.state.expected_revert = some E)
    (hinner : ∀ h' ca t i g b c, inner h' ca t i g b c = ((reason, data), h2)) :
    call env inner h addr tr input tg is_static ctx =
      (handle_expected_revert env E reason data).map fun out => (out, h2) := by
  unfold call
  rw [if_neg ha, if_neg hc]
  simp only [hexp, hinner]
  cases handle_expected_revert env E reason data <;> rfl

/-- The expected-revert comparator succeeds exactly on the two matching
shapes of the amended claim C1. -/
theorem handle_expected_revert_match (env : Env) (E data : Bytes) (r : ExitRevert)
    (hcase : (data.take 4 ≠ ERROR_STRING_SELECTOR ∧ data = E) ∨
      (4 ≤ data.length ∧ data.take 4 = ERROR_STRING_SELECTOR ∧
        decode_bytes_param (data.drop 4) = some [Token.bytes E])) :
    handle_expected_revert env E (ExitReason.Revert r) data =
      some (ExitReason.Succeed ExitSucceed.Returned, DUMMY_OUTPUT) := by
  unfold handle_expected_revert
  rcases hcase with ⟨hsel, hdata⟩ | ⟨hlen, hsel, hdec⟩
  · rw [if_neg (fun hand => hsel hand.2), if_pos hdata]
  · rw [if_pos ⟨hlen, hsel⟩, hdec]
    simp [Token.into_bytes]

/-- Counterexample to claim C1: the pending payload `E = dataC1` is
returned by the revert byte-for-byte (`data = E`), so the claim demands
`Succeed(Returned)`; but since the payload happens to begin with the
`Error(string)` selector the code takes the decode branch, obtains the
empty byte string, compares it against `E` and returns a mismatch
revert. -/
theorem expect_revert_match_counterexample :
    hC1.state.expected_revert = some dataC1
  ∧ ((call env0 (inner_returning (ExitReason.Revert ExitRevert.Reverted, dataC1) h0)
        hC1 100 none [] none false ⟨100, 0, 0⟩).map fun r => r.1.1)
      = some (ExitReason.Revert ExitRevert.Reverted) :=
  ⟨rfl, rfl⟩

/-- Claim C1 as amended: with `expectRevert(E)` pending, a next dispatched
call (to a non-reserved address) returning a revert whose data either
does not begin with the `Error(string)` selector and equals `E`
byte-for-byte, or begins with the selector and ABI-decodes to a bytes
payload equal to `E`, is converted into `Succeed(Returned)` with output
exactly `DUMMY_OUTPUT` (320 zero bytes). -/
theorem expect_revert_match (env : Env) (inner : InnerCall) (h h2 : CheatcodeHandler)
    (E data : Bytes) (addr : Addr) (tr : Option Transfer) (input : Bytes) (tg : Option Nat)
    (is_static : Bool) (ctx : Context) :
    addr ≠ CHEATCODE_ADDRESS → addr ≠ CONSOLE_ADDRESS →
    h.state.expected_revert = some E →
    (∀ h' ca t i g b c, inner h' ca t i g b c =
      ((ExitReason.Revert ExitRevert.Reverted, data), h2)) →
    ((data.take 4 ≠ ERROR_STRING_SELECTOR ∧ data = E) ∨
      (4 ≤ data.length ∧ data.take 4 = ERROR_STRING_SELECTOR ∧
        decode_bytes_param (data.drop 4) = some [Token.bytes E])) →
    call env inner h addr tr input tg is_static ctx =
      some ((ExitReason.Succeed ExitSucceed.Returned, DUMMY_OUTPUT), h2) := by
  intro ha hc hexp hinner hcase
  rw [call_unreserved env inner h h2 E data (ExitReason.Revert ExitRevert.Reverted) addr tr
    input tg is_static ctx ha hc hexp hinner]
  rw [handle_expected_revert_match env E data ExitRevert.Reverted hcase]
  rfl

/-- Witness for `expect_revert_match`: a pending expected revert `1 2 3`
matched byte-for-byte by a revert with the same (unprefixed) data yields
the dummy success. -/
theorem expect_revert_match_witness :
    call env0 (inner_returning (ExitReason.Revert ExitRevert.Reverted, [1, 2, 3]) h0)
      hC1w 100 none [] none false ⟨100, 0, 0⟩ =
      some ((ExitReason.Succeed ExitSucceed.Returned, DUMMY_OUTPUT), h0) :=
  expect_revert_match env0 (inner_returning (ExitReason.Revert ExitRevert.Reverted, [1, 2, 3]) h0)
    hC1w h0 [1, 2, 3] [1, 2, 3] 100 none [] none false ⟨100, 0, 0⟩
    (by decide) (by decide) rfl (fun _ _ _ _ _ _ _ => rfl)
    (Or.inl ⟨by decide, rfl⟩)

/-- Counterexample to claim C2: the next call reverts with payload
`08 c3 79 a0 00` — five bytes beginning with the `Error(string)`
selector, whose tail does not ABI-decode — which does not match the
pending expected payload `[1]`; the claim demands a synthetic mismatch
revert, but the code panics on the failed decode (`none`). -/
theorem expect_revert_mismatch_counterexample :
    call env0 (inner_returning (ExitReason.Revert ExitRevert.Reverted, [8, 195, 121, 160, 0]) h0)
      hC2 100 none [] none false ⟨100, 0, 0⟩ = none :=
  rfl

/-- Claim C2 as amended: with `expectRevert(E)` pending, a next dispatched
call (to a non-reserved address) that does not revert yields a synthetic
revert with message exactly "Expected revert call did not revert"; one
that reverts with a selector-prefixed payload whose tail ABI-decodes to
`D ≠ E` yields a synthetic revert describing the discrepancy via the
decoded strings; and one that reverts with an unprefixed payload
different from `E` yields a synthetic revert describing the discrepancy
in hex. -/
theorem expect_revert_mismatch (env : Env) (inner : InnerCall) (h h2 : CheatcodeHandler)
    (E data D : Bytes) (reason : ExitReason) (addr : Addr) (tr : Option Transfer)
    (input : Bytes) (tg : Option Nat) (is_static : Bool) (ctx : Context) :
    addr ≠ CHEATCODE_ADDRESS → addr ≠ CONSOLE_ADDRESS →
    h.state.expected_revert = some E →
    (∀ h' ca t i g b c, inner h' ca t i g b c = ((reason, data), h2)) →
    ((∀ r, reason ≠ ExitReason.Revert r) →
      call env inner h addr tr input tg is_static ctx =
        some (evm_error did_not_revert_msg, h2))
  ∧ (reason = ExitReason.Revert ExitRevert.Reverted → 4 ≤ data.length →
      data.take 4 = ERROR_STRING_SELECTOR →
      decode_bytes_param (data.drop 4) = some [Token.bytes D] → D ≠ E →
      call env inner h addr tr input tg is_static ctx =
        some (evm_error (mismatch_string_msg env D E), h2))
  ∧ (reason = ExitReason.Revert ExitRevert.Reverted → data.take 4 ≠ ERROR_STRING_SELECTOR →
      data ≠ E →
      call env inner h addr tr input tg is_static ctx =
        some (evm_error (mismatch_data_msg data E), h2)) := by
  intro ha hc hexp hinner
  refine ⟨?_, ?_, ?_⟩
  · intro hne
    rw [call_unreserved env inner h h2 E data reason addr tr input tg is_static ctx
      ha hc hexp hinner]
    cases reason with
    | Revert r => exact absurd rfl (hne r)
    | Succeed s => rfl
    | Error e => rfl
    | Fatal => rfl
  · intro hrev hlen hsel hdec hne
    subst hrev
    rw [call_unreserved env inner h h2 E data (ExitReason.Revert ExitRevert.Reverted) addr tr
      input tg is_static ctx ha hc hexp hinner]
    unfold handle_expected_revert
    rw [if_pos ⟨hlen, hsel⟩, hdec]
    simp only [Token.into_bytes]
    rw [if_neg hne]
    rfl
  · intro hrev hsel hne
    subst hrev
    rw [call_unreserved env inner h h2 E data (ExitReason.Revert ExitRevert.Reverted) addr tr
      input tg is_static ctx ha hc hexp hinner]
    unfold handle_expected_revert
    rw [if_neg (fun hand => hsel hand.2), if_neg hne]
    rfl

/-- Witness for `expect_revert_mismatch` at concrete inputs: a `Stopped`
success instead of a revert, a decodable selector-prefixed mismatch, and
a raw-data mismatch. -/
theorem expect_revert_mismatch_witness :
    (call env0 (inner_returning (ExitReason.Succeed ExitSucceed.Stopped, []) h0)
      hC2 100 none [] none false ⟨100, 0, 0⟩ =
        some (evm_error did_not_revert_msg, h0))
  ∧ (call env0 (inner_returning (ExitReason.Revert ExitRevert.Reverted, dataC1) h0)
      hC2 100 none [] none false ⟨100, 0, 0⟩ =
        some (evm_error (mismatch_string_msg env0 [] [1]), h0))
  ∧ (call env0 (inner_returning (ExitReason.Revert ExitRevert.Reverted, [7]) h0)
      hC2 100 none [] none false ⟨100, 0, 0⟩ =
        some (evm_error (mismatch_data_msg [7] [1]), h0)) := by
  refine ⟨?_, ?_, ?_⟩
  · exact (expect_revert_mismatch env0 _ hC2 h0 [1] [] []
      (ExitReason.Succeed ExitSucceed.Stopped) 100 none [] none false ⟨100, 0, 0⟩
      (by decide) (by decide) rfl (fun _ _ _ _ _ _ _ => rfl)).1
      (fun r => by simp)
  · exact (expect_revert_mismatch env0 _ hC2 h0 [1] dataC1 []
      (ExitReason.Revert ExitRevert.Reverted) 100 none [] none false ⟨100, 0, 0⟩
      (by decide) (by decide) rfl (fun _ _ _ _ _ _ _ => rfl)).2.1
      rfl (by decide) (by decide) rfl (by decide)
  · exact (expect_revert_mismatch env0 _ hC2 h0 [1] [7] []
      (ExitReason.Revert ExitRevert.Reverted) 100 none [] none false ⟨100, 0, 0⟩
      (by decide) (by decide) rfl (fun _ _ _ _ _ _ _ => rfl)).2.2
      rfl (by decide) (by decide)

/-- Counterexample to claim C9: the revert payload consisting of the bare
`Error(string)` selector (so its remaining bytes are empty) begins with
the selector, yet ABI-decoding the empty tail fails and the comparator
panics (`none`) through the first `expect`, instead of completing with a
success or mismatch revert. -/
theorem comparator_total_counterexample :
    decode_bytes_param (ERROR_STRING_SELECTOR.drop 4) = none
  ∧ handle_expected_revert env0 [] (ExitReason.Revert ExitRevert.Reverted)
      ERROR_STRING_SELECTOR = none :=
  ⟨rfl, rfl⟩

/-- Claim C9 as amended: whenever the tail of a selector-prefixed revert
payload does ABI-decode, the decoded token list is a singleton bytes
token on which `into_bytes` cannot fail (the second `expect` is
unreachable), and the comparator completes with some result; totality
over all selector-prefixed payloads fails only at the decode `expect`. -/
theorem comparator_decode_total (env : Env) (E data : Bytes) (r : ExitRevert) :
    (∀ toks, decode_bytes_param (data.drop 4) = some toks →
      ∃ b, toks = [Token.bytes b] ∧ Token.into_bytes (Token.bytes b) = some b)
  ∧ ((decode_bytes_param (data.drop 4)).isSome →
      (handle_expected_revert env E (ExitReason.Revert r) data).isSome) := by
  have hshape : ∀ toks, decode_bytes_param (data.drop 4) = some toks →
      ∃ b, toks = [Token.bytes b] ∧ Token.into_bytes (Token.bytes b) = some b := by
    intro toks htoks
    unfold decode_bytes_param at htoks
    repeat' split at htoks
    all_goals simp only [Option.some.injEq, reduceCtorEq] at htoks
    subst htoks
    exact ⟨_, rfl, rfl⟩
  refine ⟨hshape, ?_⟩
  intro hsome
  unfold handle_expected_revert
  by_cases hguard : 4 ≤ data.length ∧ data.take 4 = ERROR_STRING_SELECTOR
  · rw [if_pos hguard]
    obtain ⟨toks, htoks⟩ := Option.isSome_iff_exists.mp hsome
    obtain ⟨b, hb, hbytes⟩ := hshape toks htoks
    subst hb
    rw [htoks]
    simp only [Token.into_bytes]
    split_ifs <;> simp
  · rw [if_neg hguard]
    split_ifs <;> simp

/-- Witness for `comparator_decode_total`: the payload `dataC1` decodes
to the empty bytes token and the comparator completes on it. -/
theorem comparator_decode_total_witness :
    (∃ b, [Token.bytes ([] : Bytes)] = [Token.bytes b] ∧
      Token.into_bytes (Token.bytes b) = some b)
  ∧ (handle_expected_revert env0 [9] (ExitReason.Revert ExitRevert.Reverted)
      dataC1).isSome := by
  constructor
  · exact (comparator_decode_total env0 [9] dataC1 ExitRevert.Reverted).1
      [Token.bytes []] rfl
  · exact (comparator_decode_total env0 [9] dataC1 ExitRevert.Reverted).2 rfl

/-! ### Claim C10: reserved-address dispatch precedes prank and
expected-revert processing -/

/-- Claim C10: calls to the cheatcode or console address are dispatched
before any prank or expected-revert processing — the result equals the
engine's or logger's output whatever the inner call would do; the console
logger leaves the executor state (hence a pending expected revert)
untouched; and a cheatcode changes the `expected_revert`,
`next_msg_sender` and `msg_sender` fields only through its own variant
(`ExpectRevert`, `Prank`, `StartPrank`/`StopPrank` respectively). -/
theorem reserved_address_dispatch (env : Env) (inner : InnerCall) (h : CheatcodeHandler)
    (tr : Option Transfer) (input : Bytes) (tg : Option Nat) (is_static : Bool)
    (ctx : Context) :
    (call env inner h CHEATCODE_ADDRESS tr input tg is_static ctx =
      apply_cheatcode env h input ctx.caller)
  ∧ (call env inner h CONSOLE_ADDRESS tr input tg is_static ctx =
      some (console_log env h input))
  ∧ (∀ r h', console_log env h input = (r, h') → h'.state = h.state)
  ∧ (∀ d r h', apply_cheatcode_decoded env h d ctx.caller = some (r, h') →
      (d.is_expect_revert = false → h'.state.expected_revert = h.state.expected_revert)
      ∧ (d.is_prank = false → h'.state.next_msg_sender = h.state.next_msg_sender)
      ∧ (d.is_start_prank = false → d.is_stop_prank = false →
          h'.state.msg_sender = h.state.msg_sender)) := by
  refine ⟨?_, ?_, ?_, ?_⟩
  · unfold call
    rw [if_pos rfl]
  · unfold call
    rw [if_neg (by decide), if_pos rfl]
  · intro r h' hcons
    unfold console_log at hcons
    cases hdec : env.consoleRender input with
    | error err =>
      rw [hdec] at hcons
      simp only [Prod.mk.injEq] at hcons
      rw [← hcons.2]
    | ok s =>
      rw [hdec] at hcons
      simp only [Prod.mk.injEq] at hcons
      rw [← hcons.2]
  · intro d r h' happ
    cases d <;>
      (simp only [apply_cheatcode_decoded] at happ
       repeat' split at happ
       all_goals
         simp only [Option.some.injEq, Prod.mk.injEq, reduceCtorEq] at happ
       all_goals
         (try obtain ⟨hr, hh⟩ := happ)
       all_goals (try subst hh)
       all_goals
         refine ⟨fun h1 => ?_, fun h2 => ?_, fun h3 h4 => ?_⟩ <;>
           simp_all [set_storage, set_code, deposit, reset_balance, HEVMCalls.is_prank,
             HEVMCalls.is_start_prank, HEVMCalls.is_stop_prank, HEVMCalls.is_expect_revert])


/-- Witness for `reserved_address_dispatch` at concrete inputs: both
reserved addresses bypass a fatal inner call, the console logger
preserves the state (so the pending expected revert survives), and a
`Warp` cheatcode preserves `expected_revert`. -/
theorem reserved_address_dispatch_witness :
    (call envC10 (inner_returning (ExitReason.Fatal, []) h0) hC10 CHEATCODE_ADDRESS none []
      none false ⟨0, 7, 0⟩ = apply_cheatcode envC10 hC10 [] 7)
  ∧ (call envC10 (inner_returning (ExitReason.Fatal, []) h0) hC10 CONSOLE_ADDRESS none []
      none false ⟨0, 7, 0⟩ = some (console_log envC10 hC10 []))
  ∧ ({ hC10 with console_logs := hC10.console_logs ++ ["log"] }.state = hC10.state)
  ∧ ({ hC10 with state := { hC10.state with
        cheats := { hC10.state.cheats with block_timestamp := some 3 } } }.state.expected_revert
      = hC10.state.expected_revert) := by
  have h := reserved_address_dispatch envC10 (inner_returning (ExitReason.Fatal, []) h0) hC10
    none [] none false ⟨0, 7, 0⟩
  refine ⟨h.1, h.2.1, ?_, ?_⟩
  · exact h.2.2.1 (ExitReason.Succeed ExitSucceed.Stopped, [])
      { hC10 with console_logs := hC10.console_logs ++ ["log"] } rfl
  · exact (h.2.2.2 (HEVMCalls.Warp 3) (ExitReason.Succeed ExitSucceed.Stopped, [])
      { hC10 with state := { hC10.state with
        cheats := { hC10.state.cheats with block_timestamp := some 3 } } } rfl).1 rfl

end Cheatcodes
